import Mathlib

/-!
Verification of the financial calculation engine of the portfolio manager
(`core/calculator.py`, `core/tax_calculator.py`, `database/db_manager.py`
lot replay, `database/models.py` position valuation).

Python `float` values are modelled as exact rationals (`ℚ`); `float('inf')`
in the tax-bracket table is modelled as `Option ℚ` with `none` for infinity.
Transaction dates are the ISO date strings the code sorts lexicographically.
The one fallible computation — `calculate_progressive_tax_dividend`, whose
unguarded `total_tax / gross_dividend` raises `ZeroDivisionError` at
`gross_dividend = 0` — returns `Except`, and its callers propagate the error
exactly where Python would.
-/

namespace Trading

/-- `Transaction` dataclass from `database/models.py` (fields used by the
calculation engine). `transactionType` is `"ACHAT"` (buy) or `"VENTE"` (sell). -/
structure Transaction where
  id : Nat
  ticker : String
  companyName : String
  transactionType : String
  quantity : ℚ
  pricePerShare : ℚ
  transactionDate : String
  totalCost : ℚ
  fees : ℚ
  notes : String
deriving DecidableEq, Repr

/-- `RealizedGainLoss` dataclass from `core/calculator.py`. -/
structure RealizedGainLoss where
  ticker : String
  quantitySold : ℚ
  sellPrice : ℚ
  averageBuyPrice : ℚ
  totalGainLoss : ℚ
  gainLossPercent : ℚ
  sellDate : String
  buyTransactionsUsed : List Nat
deriving DecidableEq, Repr

/-- Accumulator of the FIFO loop in
`FinancialCalculator.calculate_realized_pv_fifo`
(`total_buy_cost`, `quantity_sold`, `transactions_used`). -/
structure FifoState where
  totalBuyCost : ℚ
  quantitySold : ℚ
  transactionsUsed : List Nat
deriving DecidableEq, Repr

/-- The `for buy_tx in buy_transactions` loop of
`calculate_realized_pv_fifo`: stops once `quantity_sold >= quantity_to_sell`,
otherwise consumes `min(buy_tx.quantity, quantity_to_sell - quantity_sold)`
shares at `buy_tx.total_cost / buy_tx.quantity` per share. -/
def fifoLoop (quantityToSell : ℚ) : List Transaction → FifoState → FifoState
  | [], s => s
  | tx :: rest, s =>
    if quantityToSell ≤ s.quantitySold then s
    else
      let quantityFromThisBuy := min tx.quantity (quantityToSell - s.quantitySold)
      fifoLoop quantityToSell rest
        { totalBuyCost := s.totalBuyCost + quantityFromThisBuy * (tx.totalCost / tx.quantity),
          quantitySold := s.quantitySold + quantityFromThisBuy,
          transactionsUsed := s.transactionsUsed ++ [tx.id] }

/-- `FinancialCalculator.calculate_realized_pv_fifo`
(`core/calculator.py`, lines 96-159). -/
def calculate_realized_pv_fifo (buyTransactions : List Transaction)
    (sellTransaction : Transaction) : RealizedGainLoss :=
  let s := fifoLoop sellTransaction.quantity buyTransactions ⟨0, 0, []⟩
  let averageBuyPrice := if 0 < s.quantitySold then s.totalBuyCost / s.quantitySold else 0
  let sellAmount := sellTransaction.totalCost
  let totalPv := sellAmount - s.totalBuyCost
  let pvPercent := if 0 < s.totalBuyCost then totalPv / s.totalBuyCost * 100 else 0
  { ticker := sellTransaction.ticker
    quantitySold := s.quantitySold
    sellPrice := sellTransaction.pricePerShare
    averageBuyPrice := averageBuyPrice
    totalGainLoss := totalPv
    gainLossPercent := pvPercent
    sellDate := sellTransaction.transactionDate
    buyTransactionsUsed := s.transactionsUsed }

/-- `FinancialCalculator._update_remaining_buys`
(`core/calculator.py`, lines 199-242): removes `quantitySold` shares from the
front of the buy queue, splitting the lot it lands in proportionally. -/
def update_remaining_buys : List Transaction → ℚ → List Transaction
  | [], _ => []
  | buyTx :: rest, quantityToRemove =>
    if quantityToRemove ≤ 0 then
      buyTx :: update_remaining_buys rest quantityToRemove
    else if quantityToRemove < buyTx.quantity then
      { buyTx with
        quantity := buyTx.quantity - quantityToRemove,
        totalCost := buyTx.totalCost * (buyTx.quantity - quantityToRemove) / buyTx.quantity,
        fees := buyTx.fees * (buyTx.quantity - quantityToRemove) / buyTx.quantity }
        :: update_remaining_buys rest 0
    else
      update_remaining_buys rest (quantityToRemove - buyTx.quantity)

/-- Chronological ordering used by `sorted(transactions, key=lambda t:
t.transaction_date)`; Python's sort is stable, as is insertion sort. -/
def sortByDate (transactions : List Transaction) : List Transaction :=
  transactions.insertionSort (fun a b => a.transactionDate ≤ b.transactionDate)

/-- The chronological replay loop of
`FinancialCalculator.calculate_all_realized_pv`, also returning the final
`remaining_buys` state (kept local in the Python code). -/
def allRealizedLoop : List Transaction → List Transaction →
    List RealizedGainLoss × List Transaction
  | [], remainingBuys => ([], remainingBuys)
  | tx :: rest, remainingBuys =>
    if tx.transactionType = "ACHAT" then
      allRealizedLoop rest (remainingBuys ++ [tx])
    else if tx.transactionType = "VENTE" then
      let pv := calculate_realized_pv_fifo remainingBuys tx
      let next := allRealizedLoop rest (update_remaining_buys remainingBuys tx.quantity)
      (pv :: next.1, next.2)
    else
      allRealizedLoop rest remainingBuys

/-- `FinancialCalculator.calculate_all_realized_pv`
(`core/calculator.py`, lines 161-197). -/
def calculate_all_realized_pv (transactions : List Transaction) :
    List RealizedGainLoss :=
  (allRealizedLoop (sortByDate transactions) []).1

/-- The `remaining_buys` list left over after `calculate_all_realized_pv`
has replayed the whole history. -/
def remainingBuysAfterAll (transactions : List Transaction) : List Transaction :=
  (allRealizedLoop (sortByDate transactions) []).2

/-- Sum of the quantities of the BUY (`ACHAT`) transactions of a list. -/
def buyQty : List Transaction → ℚ
  | [] => 0
  | tx :: rest => (if tx.transactionType = "ACHAT" then tx.quantity else 0) + buyQty rest

/-- Sum of the quantities of the SELL (`VENTE`) transactions of a list. -/
def sellQty : List Transaction → ℚ
  | [] => 0
  | tx :: rest => (if tx.transactionType = "VENTE" then tx.quantity else 0) + sellQty rest

/-- Sum of the quantities of a transaction list. -/
def qtySum : List Transaction → ℚ
  | [] => 0
  | tx :: rest => tx.quantity + qtySum rest

/-- Sum of `quantity_sold` over a list of realized-gain records. -/
def soldSum : List RealizedGainLoss → ℚ
  | [] => 0
  | r :: rest => r.quantitySold + soldSum rest

/-- Division performed on each lot the FIFO loop of
`calculate_realized_pv_fifo` actually consumes is
`buy_tx.total_cost / buy_tx.quantity`; this predicate records that no such
denominator is zero on the lots the loop touches before it stops. -/
def fifoDivSafe (quantityToSell : ℚ) : List Transaction → ℚ → Prop
  | [], _ => True
  | tx :: rest, sold =>
    if quantityToSell ≤ sold then True
    else tx.quantity ≠ 0 ∧
      fifoDivSafe quantityToSell rest (sold + min tx.quantity (quantityToSell - sold))

/-! ### Tax calculator (`core/tax_calculator.py`) and `config.py` constants -/

/-- `FLAT_TAX_RATE` from `config.py`. -/
def FLAT_TAX_RATE : ℚ := 0.30

/-- `INCOME_TAX_RATE` from `config.py`. -/
def INCOME_TAX_RATE : ℚ := 0.128

/-- `SOCIAL_TAX_RATE` from `config.py`. -/
def SOCIAL_TAX_RATE : ℚ := 0.172

/-- `CSG_DEDUCTIBLE_RATE` from `config.py`. -/
def CSG_DEDUCTIBLE_RATE : ℚ := 0.068

/-- `DIVIDEND_ALLOWANCE_RATE` from `config.py`. -/
def DIVIDEND_ALLOWANCE_RATE : ℚ := 0.40

/-- `TaxResult` dataclass; the Python `breakdown` dict becomes an
association list. -/
structure TaxResult where
  gross_amount : ℚ
  tax_amount : ℚ
  net_amount : ℚ
  breakdown : List (String × ℚ)
deriving DecidableEq, Repr

/-- `TaxCalculator.calculate_pfu_dividend` (`tax_calculator.py`, lines 31-64). -/
def calculate_pfu_dividend (gross_dividend : ℚ) : TaxResult :=
  let income_tax := gross_dividend * INCOME_TAX_RATE
  let social_tax := gross_dividend * SOCIAL_TAX_RATE
  let total_tax := income_tax + social_tax
  let net_amount := gross_dividend - total_tax
  let csg_deductible := gross_dividend * CSG_DEDUCTIBLE_RATE
  { gross_amount := gross_dividend
    tax_amount := total_tax
    net_amount := net_amount
    breakdown := [("impot_revenu", income_tax), ("prelevements_sociaux", social_tax),
      ("csg_deductible", csg_deductible), ("taux_effectif", FLAT_TAX_RATE)] }

/-- `TaxCalculator.calculate_pfu_capital_gain`: same computation as for
dividends. -/
def calculate_pfu_capital_gain (capital_gain : ℚ) : TaxResult :=
  calculate_pfu_dividend capital_gain

/-- `TaxCalculator.calculate_progressive_tax_dividend`
(`tax_calculator.py`, lines 80-125). The breakdown entry
`'taux_effectif': (total_tax / gross_dividend) * 100` on line 123 has no
zero guard, so at `gross_dividend = 0` the Python function raises
`ZeroDivisionError` while building the dict and yields no result; that
error path is the `Except.error` branch. -/
def calculate_progressive_tax_dividend (gross_dividend marginal_tax_rate : ℚ) :
    Except String TaxResult :=
  let taxable_amount := gross_dividend * (1 - DIVIDEND_ALLOWANCE_RATE)
  let income_tax := taxable_amount * (marginal_tax_rate / 100)
  let social_tax := gross_dividend * SOCIAL_TAX_RATE
  let total_tax := income_tax + social_tax
  let net_amount := gross_dividend - total_tax
  let csg_deductible := gross_dividend * CSG_DEDUCTIBLE_RATE
  if gross_dividend = 0 then Except.error "ZeroDivisionError"
  else Except.ok
    { gross_amount := gross_dividend
      tax_amount := total_tax
      net_amount := net_amount
      breakdown := [("abattement_40pct", gross_dividend * DIVIDEND_ALLOWANCE_RATE),
        ("base_imposable", taxable_amount), ("impot_revenu", income_tax),
        ("prelevements_sociaux", social_tax), ("csg_deductible", csg_deductible),
        ("taux_marginal", marginal_tax_rate),
        ("taux_effectif", total_tax / gross_dividend * 100)] }

/-- Result dictionary of `TaxCalculator.compare_pfu_vs_progressive`,
flattened into a structure. -/
structure ComparisonResult where
  pfu_net : ℚ
  pfu_tax : ℚ
  pfu_rate : ℚ
  progressive_net : ℚ
  progressive_tax : ℚ
  progressive_rate : ℚ
  difference : ℚ
  best_option : String
  savings : ℚ
deriving DecidableEq, Repr

/-- `TaxCalculator.compare_pfu_vs_progressive`
(`tax_calculator.py`, lines 127-165). Note the Python source computes
`diff = pfu.tax_amount - progressive.tax_amount` and then
`better_option = "PFU" if diff > 0 else "Barème progressif"`. The
`ZeroDivisionError` of `calculate_progressive_tax_dividend` at gross 0
propagates out of the Python call, hence the `Except`. -/
def compare_pfu_vs_progressive (gross_dividend marginal_tax_rate : ℚ) :
    Except String ComparisonResult :=
  let pfu_result := calculate_pfu_dividend gross_dividend
  match calculate_progressive_tax_dividend gross_dividend marginal_tax_rate with
  | Except.error e => Except.error e
  | Except.ok progressive_result =>
    let diff := pfu_result.tax_amount - progressive_result.tax_amount
    let better_option := if 0 < diff then "PFU" else "Barème progressif"
    Except.ok
      { pfu_net := pfu_result.net_amount
        pfu_tax := pfu_result.tax_amount
        pfu_rate := 30
        progressive_net := progressive_result.net_amount
        progressive_tax := progressive_result.tax_amount
        progressive_rate := (progressive_result.breakdown.lookup "taux_effectif").getD 0
        difference := |diff|
        best_option := better_option
        savings := if diff ≠ 0 then |diff| else 0 }

/-- The `'revenus'` block of `calculate_annual_tax_summary`. -/
structure AnnualRevenus where
  dividendes_bruts : ℚ
  plus_values : ℚ
  moins_values : ℚ
  plus_values_nettes : ℚ
  total_brut : ℚ
deriving DecidableEq, Repr

/-- The `'pfu'` block of `calculate_annual_tax_summary`. -/
structure AnnualPFU where
  impot_dividendes : ℚ
  impot_pv : ℚ
  total_impot : ℚ
  total_net : ℚ
  csg_deductible : ℚ
deriving DecidableEq, Repr

/-- The `'bareme_progressif'` block of `calculate_annual_tax_summary`
(present only when a marginal rate is supplied). -/
structure AnnualBareme where
  impot_dividendes : ℚ
  impot_pv : ℚ
  total_impot : ℚ
  total_net : ℚ
  tmi : ℚ
deriving DecidableEq, Repr

/-- The `'comparaison'` block of `calculate_annual_tax_summary`. -/
structure AnnualComparaison where
  difference : ℚ
  meilleure_option : String
  economie : ℚ
deriving DecidableEq, Repr

/-- The dictionary returned by `calculate_annual_tax_summary`. -/
structure AnnualSummary where
  revenus : AnnualRevenus
  pfu : AnnualPFU
  bareme_progressif : Option AnnualBareme
  comparaison : Option AnnualComparaison
deriving DecidableEq, Repr

/-- `TaxCalculator.calculate_annual_tax_summary`
(`tax_calculator.py`, lines 167-238); the optional `marginal_tax_rate`
(Python default `None`) is an `Option`. When a rate is supplied and
`total_dividends = 0`, the call to `calculate_progressive_tax_dividend`
raises in Python, so the error propagates here too. -/
def calculate_annual_tax_summary (total_dividends total_capital_gains : ℚ)
    (total_capital_losses : ℚ) (marginal_tax_rate : Option ℚ) :
    Except String AnnualSummary :=
  let net_capital_gains := max 0 (total_capital_gains - total_capital_losses)
  let dividend_tax := calculate_pfu_dividend total_dividends
  let capital_gain_tax := calculate_pfu_capital_gain net_capital_gains
  let total_tax_pfu := dividend_tax.tax_amount + capital_gain_tax.tax_amount
  let total_net_pfu := dividend_tax.net_amount + capital_gain_tax.net_amount
  let revenus : AnnualRevenus :=
    { dividendes_bruts := total_dividends
      plus_values := total_capital_gains
      moins_values := total_capital_losses
      plus_values_nettes := net_capital_gains
      total_brut := total_dividends + net_capital_gains }
  let pfuBlock : AnnualPFU :=
    { impot_dividendes := dividend_tax.tax_amount
      impot_pv := capital_gain_tax.tax_amount
      total_impot := total_tax_pfu
      total_net := total_net_pfu
      csg_deductible := (dividend_tax.breakdown.lookup "csg_deductible").getD 0 +
        (capital_gain_tax.breakdown.lookup "csg_deductible").getD 0 }
  match marginal_tax_rate with
  | none =>
    Except.ok
      { revenus := revenus, pfu := pfuBlock, bareme_progressif := none, comparaison := none }
  | some tmi =>
    match calculate_progressive_tax_dividend total_dividends tmi with
    | Except.error e => Except.error e
    | Except.ok progressive_div =>
      let progressive_pv := calculate_pfu_capital_gain net_capital_gains
      let total_tax_progressive := progressive_div.tax_amount + progressive_pv.tax_amount
      Except.ok
        { revenus := revenus
          pfu := pfuBlock
          bareme_progressif := some
            { impot_dividendes := progressive_div.tax_amount
              impot_pv := progressive_pv.tax_amount
              total_impot := total_tax_progressive
              total_net := (total_dividends + net_capital_gains) - total_tax_progressive
              tmi := tmi }
          comparaison := some
            { difference := total_tax_pfu - total_tax_progressive
              meilleure_option :=
                if total_tax_pfu < total_tax_progressive then "PFU" else "Barème"
              economie := |total_tax_pfu - total_tax_progressive| } }

/-- One row of the hard-coded 2024 bracket table of
`calculate_tax_bracket`: `(min_income, max_income, rate, name)`, with
`none` standing for the Python `float('inf')` upper bound. -/
def matchesBracket (x lo : ℚ) (hi : Option ℚ) : Prop :=
  lo ≤ x ∧ match hi with | some h => x ≤ h | none => True

instance (x lo : ℚ) (hi : Option ℚ) : Decidable (matchesBracket x lo hi) := by
  unfold matchesBracket
  cases hi <;> exact inferInstanceAs (Decidable (_ ∧ _))

/-- The `brackets` table of `calculate_tax_bracket`
(`tax_calculator.py`, lines 255-261). -/
def TAX_BRACKETS_2024 : List (ℚ × Option ℚ × ℚ × String) :=
  [(0, some 11294, 0, "0%"),
   (11295, some 28797, 11, "11%"),
   (28798, some 82341, 30, "30%"),
   (82342, some 177106, 41, "41%"),
   (177107, none, 45, "45%")]

/-- The `for min_income, max_income, rate, name in brackets` search of
`calculate_tax_bracket`, with its `(45, "45%")` fallthrough return. -/
def findBracket (x : ℚ) : List (ℚ × Option ℚ × ℚ × String) → ℚ × String
  | [] => (45, "45%")
  | (lo, hi, rate, name) :: rest =>
    if matchesBracket x lo hi then (rate, name) else findBracket x rest

/-- `TaxCalculator.calculate_tax_bracket`
(`tax_calculator.py`, lines 240-267). -/
def calculate_tax_bracket (annual_income family_quotient : ℚ) : ℚ × String :=
  findBracket (annual_income / family_quotient) TAX_BRACKETS_2024

/-- Modelled from the claim's words: the bracket schedule as the claim
states it — "0% up to 11294, 11% up to 28797, 30% up to 82341, 41% up to
177106, and 45% for any per-part income above the top threshold". -/
def claimBracketRate (x : ℚ) : ℚ :=
  if x ≤ 11294 then 0
  else if x ≤ 28797 then 11
  else if x ≤ 82341 then 30
  else if x ≤ 177106 then 41
  else 45

/-- The per-part incomes strictly inside the holes of the code's bracket
table on which the table matches no row (the hole above 177106 is
excluded: there the fallthrough value 45 coincides with the claim's
schedule). -/
def inBracketGap (x : ℚ) : Prop :=
  (11294 < x ∧ x < 11295) ∨ (28797 < x ∧ x < 28798) ∨ (82341 < x ∧ x < 82342)

/-! ### Position valuation (`src/portfolio_manager/database/models.py`) -/

/-- `Position` dataclass fields used by `update_current_values`. -/
structure Position where
  ticker : String
  company_name : String
  quantity : ℚ
  average_buy_price : ℚ
  total_invested : ℚ
  current_price : ℚ
  current_value : ℚ
  unrealized_pnl : ℚ
  unrealized_pnl_percent : ℚ
deriving DecidableEq, Repr

/-- `Position.update_current_values` (`models.py`, lines 225-234). -/
def update_current_values (p : Position) (current_price : ℚ) : Position :=
  let current_value := p.quantity * current_price
  let unrealized_pnl := current_value - p.total_invested
  { p with
    current_price := current_price,
    current_value := current_value,
    unrealized_pnl := unrealized_pnl,
    unrealized_pnl_percent :=
      if 0 < p.total_invested then unrealized_pnl / p.total_invested * 100 else 0 }

/-! ### Lot replay of `DatabaseManager._calculate_position_cost`
(`database/db_manager.py`, lines 398-420) -/

/-- A `{'quantity': ..., 'cost': ...}` lot dictionary. -/
structure Lot where
  quantity : ℚ
  cost : ℚ
deriving DecidableEq, Repr

/-- The `while quantity_to_sell > 0 and lots:` loop of
`_calculate_position_cost`: drops a lot whose quantity is within `1e-9`
of what is still to sell, otherwise shrinks the front lot
proportionally and stops. -/
def sellFromLots (quantityToSell : ℚ) : List Lot → List Lot
  | [] => []
  | lot :: rest =>
    if quantityToSell ≤ 0 then lot :: rest
    else if lot.quantity ≤ quantityToSell + 1e-9 then
      sellFromLots (quantityToSell - lot.quantity) rest
    else
      { quantity := lot.quantity - quantityToSell,
        cost := lot.cost - lot.cost * (quantityToSell / lot.quantity) } :: rest

/-- The `for tx in transactions` loop of `_calculate_position_cost`:
a buy appends a lot `{quantity, cost = total_cost}`, a sell runs the
FIFO-consumption loop. -/
def positionLots : List Transaction → List Lot → List Lot
  | [], lots => lots
  | tx :: rest, lots =>
    if tx.transactionType = "ACHAT" then
      positionLots rest (lots ++ [⟨tx.quantity, tx.totalCost⟩])
    else if tx.transactionType = "VENTE" then
      positionLots rest (sellFromLots tx.quantity lots)
    else
      positionLots rest lots

/-- Sum of the quantities of a lot list. -/
def lotQtySum : List Lot → ℚ
  | [] => 0
  | lot :: rest => lot.quantity + lotQtySum rest

/-- Sum of the costs of a lot list. -/
def lotCostSum : List Lot → ℚ
  | [] => 0
  | lot :: rest => lot.cost + lotCostSum rest

/-- `DatabaseManager._calculate_position_cost`: total remaining quantity
and cost after replaying the transactions. -/
def calculate_position_cost (transactions : List Transaction) : ℚ × ℚ :=
  let lots := positionLots transactions []
  (lotQtySum lots, lotCostSum lots)

/-! ### Concrete transactions used in the spec's worked FIFO example -/

/-- Buy B1 of the spec's FIFO example: quantity 10 at 150 with fee 1. -/
def exampleBuy1 : Transaction :=
  ⟨1, "AAPL", "", "ACHAT", 10, 150, "2024-01-01", 10 * 150 + 1, 1, ""⟩

/-- Buy B2 of the spec's FIFO example: quantity 5 at 160 with fee 1. -/
def exampleBuy2 : Transaction :=
  ⟨2, "AAPL", "", "ACHAT", 5, 160, "2024-01-02", 5 * 160 + 1, 1, ""⟩

/-- Sell S of the spec's FIFO example: quantity 12 at 180 with fee 1,
so `total_cost = 12 * 180 - 1 = 2159`. -/
def exampleSell : Transaction :=
  ⟨3, "AAPL", "", "VENTE", 12, 180, "2024-01-03", 12 * 180 - 1, 1, ""⟩

/-- A concrete position with nothing invested, used to exercise the
zero-denominator guard of `update_current_values`. -/
def examplePositionZero : Position := ⟨"AAPL", "", 0, 0, 0, 0, 0, 0, 0⟩

/-! ### Helper lemmas -/

/-- Unfolding lemma for `List.lookup` on string keys. -/
lemma lookup_cons_str (k a : String) (v : ℚ) (l : List (String × ℚ)) :
    List.lookup k ((a, v) :: l) = if k = a then some v else List.lookup k l := by
  by_cases h : k = a
  · simp [List.lookup, h]
  · have hb : (k == a) = false := beq_eq_false_iff_ne.mpr h
    simp [List.lookup, hb, h]

/-- The quantities of a transaction list with non-negative quantities sum
to a non-negative total. -/
lemma qtySum_nonneg (l : List Transaction) (h : ∀ b ∈ l, 0 ≤ b.quantity) :
    0 ≤ qtySum l := by
  induction l with
  | nil => simp [qtySum]
  | cons tx rest ih =>
    have h1 := h tx (List.mem_cons_self tx rest)
    have h2 := ih (fun b hb => h b (List.mem_cons_of_mem _ hb))
    simp only [qtySum]
    linarith

/-- `qtySum` distributes over append. -/
lemma qtySum_append (l1 l2 : List Transaction) :
    qtySum (l1 ++ l2) = qtySum l1 + qtySum l2 := by
  induction l1 with
  | nil => simp [qtySum]
  | cons tx rest ih =>
    simp only [List.cons_append, qtySum, List.append_eq, ih]
    ring

/-- Closed form of the quantity the FIFO loop sells: starting from state
`s` it stops at `s.quantitySold` if the target is already met, and
otherwise reaches the target capped by the available quantity. -/
lemma fifoLoop_quantitySold (R : ℚ) (buys : List Transaction) :
    ∀ s : FifoState, (∀ b ∈ buys, 0 ≤ b.quantity) →
      (fifoLoop R buys s).quantitySold =
        if R ≤ s.quantitySold then s.quantitySold
        else min R (s.quantitySold + qtySum buys) := by
  induction buys with
  | nil =>
    intro s _
    simp only [fifoLoop, qtySum, add_zero]
    split_ifs with h1
    · rfl
    · exact (min_eq_right (not_le.mp h1).le).symm
  | cons tx rest ih =>
    intro s h
    have htx : 0 ≤ tx.quantity := h tx (List.mem_cons_self tx rest)
    have hrest : ∀ b ∈ rest, 0 ≤ b.quantity := fun b hb => h b (List.mem_cons_of_mem _ hb)
    have hsum : 0 ≤ qtySum rest := qtySum_nonneg rest hrest
    by_cases h1 : R ≤ s.quantitySold
    · simp only [fifoLoop, if_pos h1]
    · simp only [fifoLoop, if_neg h1, qtySum]
      rw [ih _ hrest]
      by_cases h2 : tx.quantity ≤ R - s.quantitySold
      · have hqe : min tx.quantity (R - s.quantitySold) = tx.quantity := min_eq_left h2
        rw [hqe]
        by_cases h3 : R ≤ s.quantitySold + tx.quantity
        · have heq : s.quantitySold + tx.quantity = R := le_antisymm (by linarith) h3
          rw [if_pos h3, heq,
            (min_eq_left (by linarith) :
              min R (s.quantitySold + (tx.quantity + qtySum rest)) = R)]
        · rw [if_neg h3, add_assoc]
      · have hqe : min tx.quantity (R - s.quantitySold) = R - s.quantitySold :=
          min_eq_right (not_le.mp h2).le
        rw [hqe]
        have heq : s.quantitySold + (R - s.quantitySold) = R := by ring
        rw [heq, if_pos le_rfl,
          (min_eq_left (by linarith [not_le.mp h2]) :
            min R (s.quantitySold + (tx.quantity + qtySum rest)) = R)]

/-- Specialisation of `fifoLoop_quantitySold` to the all-zero initial
state used by `calculate_realized_pv_fifo`. -/
lemma fifoLoop_sold_from_zero (R : ℚ) (buys : List Transaction)
    (h : ∀ b ∈ buys, 0 ≤ b.quantity) :
    (fifoLoop R buys ⟨0, 0, []⟩).quantitySold
      = if R ≤ 0 then 0 else min R (qtySum buys) := by
  rw [fifoLoop_quantitySold R buys ⟨0, 0, []⟩ h]
  norm_num

/-- `update_remaining_buys` removes exactly the requested quantity, capped
by what the queue holds. -/
lemma update_remaining_qtySum (buys : List Transaction) :
    ∀ r : ℚ, 0 ≤ r → (∀ b ∈ buys, 0 ≤ b.quantity) →
      qtySum (update_remaining_buys buys r) = qtySum buys - min r (qtySum buys) := by
  induction buys with
  | nil =>
    intro r hr _
    simp [update_remaining_buys, qtySum, min_eq_right hr]
  | cons tx rest ih =>
    intro r hr h
    have htx : 0 ≤ tx.quantity := h tx (List.mem_cons_self tx rest)
    have hrest : ∀ b ∈ rest, 0 ≤ b.quantity := fun b hb => h b (List.mem_cons_of_mem _ hb)
    have hsum : 0 ≤ qtySum rest := qtySum_nonneg rest hrest
    simp only [update_remaining_buys, qtySum]
    split_ifs with h1 h2
    · have hr0 : r = 0 := le_antisymm h1 hr
      subst hr0
      simp only [qtySum]
      rw [ih 0 le_rfl hrest, min_eq_left hsum,
        min_eq_left (by linarith : (0:ℚ) ≤ tx.quantity + qtySum rest)]
      ring
    · simp only [qtySum]
      rw [ih 0 le_rfl hrest, min_eq_left hsum,
        min_eq_left (by linarith [not_le.mp h1] : r ≤ tx.quantity + qtySum rest)]
      ring
    · rw [ih (r - tx.quantity) (by linarith [not_lt.mp h2]) hrest]
      rcases le_total (r - tx.quantity) (qtySum rest) with hc | hc
      · rw [min_eq_left hc, min_eq_left (by linarith : r ≤ tx.quantity + qtySum rest)]
        ring
      · rw [min_eq_right hc, min_eq_right (by linarith : tx.quantity + qtySum rest ≤ r)]
        ring

/-- `update_remaining_buys` keeps quantities non-negative. -/
lemma update_remaining_nonneg (buys : List Transaction) :
    ∀ r : ℚ, (∀ b ∈ buys, 0 ≤ b.quantity) →
      ∀ b ∈ update_remaining_buys buys r, 0 ≤ b.quantity := by
  induction buys with
  | nil =>
    intro r _ b hb
    simp [update_remaining_buys] at hb
  | cons tx rest ih =>
    intro r h b hb
    have htx : 0 ≤ tx.quantity := h tx (List.mem_cons_self tx rest)
    have hrest : ∀ b ∈ rest, 0 ≤ b.quantity := fun b hb => h b (List.mem_cons_of_mem _ hb)
    simp only [update_remaining_buys] at hb
    split_ifs at hb with h1 h2
    · rcases List.mem_cons.mp hb with he | hm
      · subst he; exact htx
      · exact ih r hrest b hm
    · rcases List.mem_cons.mp hb with he | hm
      · subst he
        show 0 ≤ tx.quantity - r
        linarith [h2]
      · exact ih 0 hrest b hm
    · exact ih (r - tx.quantity) hrest b hb

/-- When every lot has non-zero quantity, the FIFO loop never divides by
zero. -/
lemma fifoDivSafe_of_nonzero (R : ℚ) (buys : List Transaction)
    (h : ∀ b ∈ buys, b.quantity ≠ 0) : ∀ sold : ℚ, fifoDivSafe R buys sold := by
  induction buys with
  | nil => intro sold; simp [fifoDivSafe]
  | cons tx rest ih =>
    intro sold
    by_cases h1 : R ≤ sold
    · simp [fifoDivSafe, h1]
    · simp only [fifoDivSafe, if_neg h1]
      exact ⟨h tx (List.mem_cons_self tx rest),
        ih (fun b hb => h b (List.mem_cons_of_mem _ hb)) _⟩

/-- Conservation invariant of the replay loop of
`calculate_all_realized_pv`: remaining quantity plus everything the
realized records sold equals the starting quantity plus all buys, as long
as no sell exceeds what is available at its point in the history. -/
lemma allLoop_conservation (txs : List Transaction) :
    ∀ remaining : List Transaction,
      (∀ tx ∈ txs, 0 < tx.quantity) →
      (∀ b ∈ remaining, 0 ≤ b.quantity) →
      (∀ p ∈ txs.inits, sellQty p ≤ qtySum remaining + buyQty p) →
      qtySum (allRealizedLoop txs remaining).2 + soldSum (allRealizedLoop txs remaining).1
        = qtySum remaining + buyQty txs := by
  induction txs with
  | nil =>
    intro remaining _ _ _
    simp [allRealizedLoop, soldSum, buyQty]
  | cons tx rest ih =>
    intro remaining htx hrem hok
    have htx0 : 0 < tx.quantity := htx tx (List.mem_cons_self tx rest)
    have htxr : ∀ t ∈ rest, 0 < t.quantity := fun t ht => htx t (List.mem_cons_of_mem _ ht)
    have hcons : ∀ p ∈ rest.inits, (tx :: p) ∈ (tx :: rest).inits := by
      intro p hp
      rcases (List.mem_inits _ _).1 hp with ⟨t, ht⟩
      exact (List.mem_inits _ _).2 ⟨t, by rw [List.cons_append, ht]⟩
    by_cases hA : tx.transactionType = "ACHAT"
    · have hrem2 : ∀ b ∈ remaining ++ [tx], 0 ≤ b.quantity := by
        intro b hb
        rcases List.mem_append.mp hb with hm | hm
        · exact hrem b hm
        · rw [List.mem_singleton.mp hm]
          exact htx0.le
      have hok2 : ∀ p ∈ rest.inits,
          sellQty p ≤ qtySum (remaining ++ [tx]) + buyQty p := by
        intro p hp
        have h2 := hok (tx :: p) (hcons p hp)
        simp +decide [sellQty, buyQty, hA] at h2
        rw [qtySum_append]
        simp only [qtySum]
        linarith
      have hih := ih (remaining ++ [tx]) htxr hrem2 hok2
      simp only [allRealizedLoop, if_pos hA]
      rw [hih, qtySum_append]
      simp only [qtySum, buyQty, if_pos hA]
      ring
    · by_cases hV : tx.transactionType = "VENTE"
      · have hsell : tx.quantity ≤ qtySum remaining := by
          have h1 := hok [tx] ((List.mem_inits _ _).2 ⟨rest, rfl⟩)
          simp +decide [sellQty, buyQty, hV, hA] at h1
          linarith
        have hsold : (calculate_realized_pv_fifo remaining tx).quantitySold
            = tx.quantity := by
          simp only [calculate_realized_pv_fifo]
          rw [fifoLoop_sold_from_zero tx.quantity remaining hrem,
            if_neg (not_le.mpr htx0), min_eq_left hsell]
        have hupd : qtySum (update_remaining_buys remaining tx.quantity)
            = qtySum remaining - tx.quantity := by
          rw [update_remaining_qtySum remaining tx.quantity htx0.le hrem,
            min_eq_left hsell]
        have hremU := update_remaining_nonneg remaining tx.quantity hrem
        have hok2 : ∀ p ∈ rest.inits,
            sellQty p ≤ qtySum (update_remaining_buys remaining tx.quantity) + buyQty p := by
          intro p hp
          have h2 := hok (tx :: p) (hcons p hp)
          simp +decide [sellQty, buyQty, hV, hA] at h2
          rw [hupd]
          linarith
        have hih := ih (update_remaining_buys remaining tx.quantity) htxr hremU hok2
        simp only [allRealizedLoop, if_neg hA, if_pos hV, soldSum]
        rw [hsold]
        simp only [buyQty, if_neg hA]
        linarith
      · have hok2 : ∀ p ∈ rest.inits, sellQty p ≤ qtySum remaining + buyQty p := by
          intro p hp
          have h2 := hok (tx :: p) (hcons p hp)
          simp +decide [sellQty, buyQty, hV, hA] at h2
          linarith
        have hih := ih remaining htxr hrem hok2
        simp only [allRealizedLoop, if_neg hA, if_neg hV]
        rw [hih]
        simp only [buyQty, if_neg hA]
        ring

/-- `buyQty` as a mapped sum, to transport it along permutations. -/
lemma buyQty_eq_map_sum (l : List Transaction) :
    buyQty l = (l.map (fun tx =>
      if tx.transactionType = "ACHAT" then tx.quantity else 0)).sum := by
  induction l with
  | nil => simp [buyQty]
  | cons tx rest ih => simp [buyQty, ih]

/-- The quantities of a lot list with non-negative quantities sum to a
non-negative total. -/
lemma lotQtySum_nonneg (lots : List Lot) (h : ∀ l ∈ lots, 0 ≤ l.quantity) :
    0 ≤ lotQtySum lots := by
  induction lots with
  | nil => simp [lotQtySum]
  | cons lot rest ih =>
    have h1 := h lot (List.mem_cons_self lot rest)
    have h2 := ih (fun l hl => h l (List.mem_cons_of_mem _ hl))
    simp only [lotQtySum]
    linarith

/-- `sellFromLots` keeps lot quantities positive and costs non-negative. -/
lemma sellFromLots_preserves_valid (lots : List Lot) :
    ∀ q : ℚ, (∀ l ∈ lots, 0 < l.quantity ∧ 0 ≤ l.cost) →
      ∀ m ∈ sellFromLots q lots, 0 < m.quantity ∧ 0 ≤ m.cost := by
  induction lots with
  | nil =>
    intro q _ m hm
    simp [sellFromLots] at hm
  | cons lot rest ih =>
    intro q h m hm
    have hlot := h lot (List.mem_cons_self lot rest)
    have hrest : ∀ l ∈ rest, 0 < l.quantity ∧ 0 ≤ l.cost :=
      fun l hl => h l (List.mem_cons_of_mem _ hl)
    simp only [sellFromLots] at hm
    split_ifs at hm with h1 h2
    · rcases List.mem_cons.mp hm with he | hmm
      · rw [he]; exact hlot
      · exact hrest m hmm
    · exact ih (q - lot.quantity) hrest m hm
    · rcases List.mem_cons.mp hm with he | hmm
      · have hq0 : 0 < q := not_le.mp h1
        have hl2 : q + 1e-9 < lot.quantity := not_le.mp h2
        have heps : (0:ℚ) < 1e-9 := by norm_num
        constructor
        · rw [he]
          show 0 < lot.quantity - q
          linarith
        · rw [he]
          show 0 ≤ lot.cost - lot.cost * (q / lot.quantity)
          have hqlt : q / lot.quantity ≤ 1 := by
            rw [div_le_one (by linarith : (0:ℚ) < lot.quantity)]
            linarith
          nlinarith [hlot.2]
      · exact hrest m hmm

/-- The lots built by `positionLots` from positive-quantity,
non-negative-cost transactions stay positive-quantity and
non-negative-cost. -/
lemma positionLots_valid (txs : List Transaction) :
    ∀ lots : List Lot, (∀ tx ∈ txs, 0 < tx.quantity ∧ 0 ≤ tx.totalCost) →
      (∀ l ∈ lots, 0 < l.quantity ∧ 0 ≤ l.cost) →
      ∀ l ∈ positionLots txs lots, 0 < l.quantity ∧ 0 ≤ l.cost := by
  induction txs with
  | nil =>
    intro lots _ h l hl
    simpa [positionLots] using h l hl
  | cons tx rest ih =>
    intro lots htx h l hl
    have htx0 := htx tx (List.mem_cons_self tx rest)
    have htxr : ∀ t ∈ rest, 0 < t.quantity ∧ 0 ≤ t.totalCost :=
      fun t ht => htx t (List.mem_cons_of_mem _ ht)
    simp only [positionLots] at hl
    split_ifs at hl with hA hV
    · refine ih (lots ++ [⟨tx.quantity, tx.totalCost⟩]) htxr ?_ l hl
      intro m hm
      rcases List.mem_append.mp hm with h1 | h1
      · exact h m h1
      · rw [List.mem_singleton.mp h1]
        exact htx0
    · exact ih (sellFromLots tx.quantity lots) htxr
        (sellFromLots_preserves_valid lots tx.quantity h) l hl
    · exact ih lots htxr h l hl

/-- A sell of at least the whole available quantity empties the lot
queue. -/
lemma sellFromLots_empties_on_oversell (lots : List Lot) :
    ∀ q : ℚ, 0 < q → (∀ l ∈ lots, 0 < l.quantity) → lotQtySum lots ≤ q →
      sellFromLots q lots = [] := by
  induction lots with
  | nil => intro q _ _ _; rfl
  | cons lot rest ih =>
    intro q hq h hsum
    have hl0 : 0 < lot.quantity := h lot (List.mem_cons_self lot rest)
    have hrest : ∀ l ∈ rest, 0 < l.quantity := fun l hl => h l (List.mem_cons_of_mem _ hl)
    have hsr : 0 ≤ lotQtySum rest :=
      lotQtySum_nonneg rest (fun l hl => (hrest l hl).le)
    have heps : (0:ℚ) < 1e-9 := by norm_num
    simp only [lotQtySum] at hsum
    simp only [sellFromLots, if_neg (not_le.mpr hq),
      if_pos (by linarith : lot.quantity ≤ q + 1e-9)]
    cases rest with
    | nil => rfl
    | cons l2 r2 =>
      have hl2 : 0 < l2.quantity := hrest l2 (List.mem_cons_self l2 r2)
      have hr2 : 0 ≤ lotQtySum r2 :=
        lotQtySum_nonneg r2 (fun l hl => (hrest l (List.mem_cons_of_mem _ hl)).le)
      refine ih (q - lot.quantity) ?_ hrest ?_
      · simp only [lotQtySum] at hsum
        linarith
      · linarith

/-- `matchesBracket` against a finite upper bound. -/
lemma matchesBracket_some (x lo h : ℚ) :
    matchesBracket x lo (some h) ↔ (lo ≤ x ∧ x ≤ h) := Iff.rfl

/-- `matchesBracket` against the infinite upper bound. -/
lemma matchesBracket_none (x lo : ℚ) :
    matchesBracket x lo none ↔ (lo ≤ x ∧ True) := Iff.rfl

/-! ### Claim theorems -/

/-- Claim C1: on the worked example — buys B1 (10 @ 150, fee 1) and B2
(5 @ 160, fee 1), sell of 12 @ 180 with fee 1 — `calculate_realized_pv_fifo`
consumes all of B1 and 2 shares of B2 (consumed cost `1501 + 2 * (801/5)`,
remaining quantity 3 on B2), yielding `total_gain_loss = 337.6` (well within
0.01) and `gain_loss_percent` within 0.01 of 18.54. -/
theorem fifo_example_correct :
    (fifoLoop exampleSell.quantity [exampleBuy1, exampleBuy2] ⟨0, 0, []⟩).totalBuyCost
        = 1501 + 2 * (801 / 5) ∧
    (calculate_realized_pv_fifo [exampleBuy1, exampleBuy2] exampleSell).buyTransactionsUsed
        = [1, 2] ∧
    (calculate_realized_pv_fifo [exampleBuy1, exampleBuy2] exampleSell).quantitySold = 12 ∧
    (calculate_realized_pv_fifo [exampleBuy1, exampleBuy2] exampleSell).totalGainLoss
        = 337.6 ∧
    |(calculate_realized_pv_fifo [exampleBuy1, exampleBuy2] exampleSell).totalGainLoss
        - 337.6| ≤ 0.01 ∧
    |(calculate_realized_pv_fifo [exampleBuy1, exampleBuy2] exampleSell).gainLossPercent
        - 18.54| < 0.01 ∧
    (update_remaining_buys [exampleBuy1, exampleBuy2] exampleSell.quantity).map
        Transaction.quantity = [3] := by
  norm_num [calculate_realized_pv_fifo, fifoLoop, update_remaining_buys,
    exampleBuy1, exampleBuy2, exampleSell, abs_le, abs_lt]

/-- Claim C2 (code bug): `compare_pfu_vs_progressive` picks `best_option`
with the inverted comparison `diff > 0` where `diff = pfu.tax - progressive.tax`.
At gross 1000 and marginal rate 0 the progressive tax (172) is strictly lower
than the PFU tax (300), yet the code reports `best_option = "PFU"`; at the
exact tie (marginal rate 64/3, both taxes 300) it reports
`"Barème progressif"`, not the claimed `"PFU"`. -/
theorem compare_best_option_at_failing_input :
    (calculate_progressive_tax_dividend 1000 0).map TaxResult.tax_amount
        = Except.ok 172 ∧
    (172 : ℚ) < (calculate_pfu_dividend 1000).tax_amount ∧
    (compare_pfu_vs_progressive 1000 0).map ComparisonResult.best_option
        = Except.ok "PFU" ∧
    (calculate_progressive_tax_dividend 1000 (64 / 3)).map TaxResult.tax_amount
        = Except.ok ((calculate_pfu_dividend 1000).tax_amount) ∧
    (compare_pfu_vs_progressive 1000 (64 / 3)).map ComparisonResult.best_option
        = Except.ok "Barème progressif" := by
  norm_num [compare_pfu_vs_progressive, calculate_pfu_dividend,
    calculate_progressive_tax_dividend, INCOME_TAX_RATE, SOCIAL_TAX_RATE,
    DIVIDEND_ALLOWANCE_RATE, Except.map]

/-- Claim C4 counterexample: the claim quantifies over every gross amount,
but at gross 0 the unguarded `taux_effectif` division makes
`calculate_progressive_tax_dividend` raise `ZeroDivisionError` instead of
yielding the claimed values — the call returns no result. -/
theorem progressive_zero_gross_counterexample :
    calculate_progressive_tax_dividend 0 30 = Except.error "ZeroDivisionError" ∧
    (calculate_progressive_tax_dividend 0 30).toOption = none := by
  norm_num [calculate_progressive_tax_dividend, Except.toOption]

/-- Claim C4 (amended): for every gross `g` and marginal rate `m`, PFU tax
is `g*0.128 + g*0.172` with net `g` minus that tax; and whenever `g ≠ 0`
(at `g = 0` the progressive computation raises `ZeroDivisionError`),
progressive tax uses taxable base `g*(1-0.40)`, income tax `taxable*m/100`,
social tax `g*0.172`, net `g - tax`, CSG deductible `g*0.068`; in
particular `pfu(5000)` has tax 1500 and `progressive(5000, 30)` has taxable
3000, income tax 900, social tax 860, tax 1760, net 3240. -/
theorem tax_formula_correct (g m : ℚ) :
    (calculate_pfu_dividend g).tax_amount = g * 0.128 + g * 0.172 ∧
    (calculate_pfu_dividend g).net_amount = g - (g * 0.128 + g * 0.172) ∧
    (g ≠ 0 → ∃ r : TaxResult,
      calculate_progressive_tax_dividend g m = Except.ok r ∧
      r.breakdown.lookup "base_imposable" = some (g * (1 - 0.40)) ∧
      r.breakdown.lookup "impot_revenu" = some (g * (1 - 0.40) * m / 100) ∧
      r.breakdown.lookup "prelevements_sociaux" = some (g * 0.172) ∧
      r.tax_amount = g * (1 - 0.40) * m / 100 + g * 0.172 ∧
      r.net_amount = g - (g * (1 - 0.40) * m / 100 + g * 0.172) ∧
      r.breakdown.lookup "csg_deductible" = some (g * 0.068)) ∧
    (calculate_pfu_dividend 5000).tax_amount = 1500 ∧
    (∃ r : TaxResult,
      calculate_progressive_tax_dividend 5000 30 = Except.ok r ∧
      r.breakdown.lookup "base_imposable" = some 3000 ∧
      r.breakdown.lookup "impot_revenu" = some 900 ∧
      r.breakdown.lookup "prelevements_sociaux" = some 860 ∧
      r.tax_amount = 1760 ∧
      r.net_amount = 3240) := by
  refine ⟨?_, ?_, ?_, ?_, ?_⟩
  · norm_num [calculate_pfu_dividend, INCOME_TAX_RATE, SOCIAL_TAX_RATE]
  · norm_num [calculate_pfu_dividend, INCOME_TAX_RATE, SOCIAL_TAX_RATE]
  · intro hg
    simp only [calculate_progressive_tax_dividend, if_neg hg]
    refine ⟨_, rfl, ?_, ?_, ?_, ?_, ?_, ?_⟩ <;>
      norm_num +decide [lookup_cons_str, INCOME_TAX_RATE, SOCIAL_TAX_RATE,
        CSG_DEDUCTIBLE_RATE, DIVIDEND_ALLOWANCE_RATE] <;> ring
  · norm_num [calculate_pfu_dividend, INCOME_TAX_RATE, SOCIAL_TAX_RATE]
  · simp only [calculate_progressive_tax_dividend,
      if_neg (by norm_num : (5000 : ℚ) ≠ 0)]
    refine ⟨_, rfl, ?_, ?_, ?_, ?_, ?_⟩ <;>
      norm_num +decide [lookup_cons_str, INCOME_TAX_RATE, SOCIAL_TAX_RATE,
        CSG_DEDUCTIBLE_RATE, DIVIDEND_ALLOWANCE_RATE]

/-- Witness for the amended C4 at gross 5000 and marginal rate 30, the
spec's own worked instance, discharging the non-zero-gross hypothesis. -/
theorem tax_formula_correct_witness :
    ∃ r : TaxResult,
      calculate_progressive_tax_dividend 5000 30 = Except.ok r ∧
      r.breakdown.lookup "base_imposable" = some ((5000 : ℚ) * (1 - 0.40)) ∧
      r.breakdown.lookup "impot_revenu" = some ((5000 : ℚ) * (1 - 0.40) * 30 / 100) ∧
      r.breakdown.lookup "prelevements_sociaux" = some ((5000 : ℚ) * 0.172) ∧
      r.tax_amount = (5000 : ℚ) * (1 - 0.40) * 30 / 100 + 5000 * 0.172 ∧
      r.net_amount = (5000 : ℚ) - (5000 * (1 - 0.40) * 30 / 100 + 5000 * 0.172) ∧
      r.breakdown.lookup "csg_deductible" = some ((5000 : ℚ) * 0.068) :=
  (tax_formula_correct 5000 30).2.2.1 (by norm_num)

/-- Claim C5 counterexample: the claim quantifies over every dividends
total with an optional marginal rate, but at dividends 0 with a rate
supplied the Python call raises `ZeroDivisionError` (via
`calculate_progressive_tax_dividend`) and yields no summary at all. -/
theorem annual_summary_zero_dividends_counterexample :
    calculate_annual_tax_summary 0 100 0 (some 30) = Except.error "ZeroDivisionError" ∧
    (calculate_annual_tax_summary 0 100 0 (some 30)).toOption = none := by
  norm_num [calculate_annual_tax_summary, calculate_progressive_tax_dividend,
    Except.toOption]

/-- Claim C5 (amended): `calculate_annual_tax_summary` floors net capital
gains at `max 0 (gains - losses)` — never negative — and, when a marginal
rate is supplied and the dividends total is non-zero (at 0 the call raises
`ZeroDivisionError`), the progressive block still taxes net capital gains
with the PFU formula while only dividends switch to the progressive
formula. -/
theorem annual_summary_guards (d g l mr : ℚ) :
    (∃ s : AnnualSummary,
      calculate_annual_tax_summary d g l none = Except.ok s ∧
      s.revenus.plus_values_nettes = max 0 (g - l) ∧
      0 ≤ s.revenus.plus_values_nettes) ∧
    (d ≠ 0 → ∃ s : AnnualSummary,
      calculate_annual_tax_summary d g l (some mr) = Except.ok s ∧
      s.revenus.plus_values_nettes = max 0 (g - l) ∧
      0 ≤ s.revenus.plus_values_nettes ∧
      (s.bareme_progressif).map AnnualBareme.impot_pv
        = some ((calculate_pfu_capital_gain (max 0 (g - l))).tax_amount) ∧
      (∃ r : TaxResult,
        calculate_progressive_tax_dividend d mr = Except.ok r ∧
        (s.bareme_progressif).map AnnualBareme.impot_dividendes
          = some r.tax_amount)) := by
  constructor
  · simp only [calculate_annual_tax_summary]
    exact ⟨_, rfl, rfl, le_max_left 0 (g - l)⟩
  · intro hd
    simp only [calculate_annual_tax_summary, calculate_progressive_tax_dividend,
      if_neg hd]
    refine ⟨_, rfl, rfl, le_max_left 0 (g - l), ?_, ?_⟩
    · simp
    · exact ⟨_, rfl, by simp⟩

/-- Witness for the amended C5 at dividends 5000, gains 100, losses 300
and marginal rate 30, discharging the non-zero-dividends hypothesis (and
exercising the loss floor: net gains are `max 0 (-200) = 0`). -/
theorem annual_summary_guards_witness :
    ∃ s : AnnualSummary,
      calculate_annual_tax_summary 5000 100 300 (some 30) = Except.ok s ∧
      s.revenus.plus_values_nettes = max 0 ((100 : ℚ) - 300) ∧
      0 ≤ s.revenus.plus_values_nettes ∧
      (s.bareme_progressif).map AnnualBareme.impot_pv
        = some ((calculate_pfu_capital_gain (max 0 ((100 : ℚ) - 300))).tax_amount) ∧
      (∃ r : TaxResult,
        calculate_progressive_tax_dividend 5000 30 = Except.ok r ∧
        (s.bareme_progressif).map AnnualBareme.impot_dividendes
          = some r.tax_amount) :=
  (annual_summary_guards 5000 100 300 30).2 (by norm_num)

/-- Claim C3: for every transaction history of one ticker with positive
quantities (the data-model invariant) in which the cumulative sell quantity
never exceeds the cumulative bought quantity in chronological order, after
`calculate_all_realized_pv` the remaining lot quantities plus the
`quantity_sold` of all returned records equal the sum of all BUY
quantities. -/
theorem lot_conservation (txs : List Transaction)
    (htx : ∀ tx ∈ txs, 0 < tx.quantity)
    (hok : ∀ p ∈ (sortByDate txs).inits, sellQty p ≤ buyQty p) :
    qtySum (remainingBuysAfterAll txs) + soldSum (calculate_all_realized_pv txs)
      = buyQty txs := by
  have hperm : List.Perm (sortByDate txs) txs := by
    unfold sortByDate
    exact List.perm_insertionSort _ txs
  have htxS : ∀ tx ∈ sortByDate txs, 0 < tx.quantity :=
    fun tx ht => htx tx (hperm.mem_iff.mp ht)
  have hok0 : ∀ p ∈ (sortByDate txs).inits, sellQty p ≤ qtySum [] + buyQty p := by
    intro p hp
    simpa [qtySum] using hok p hp
  have h := allLoop_conservation (sortByDate txs) [] htxS
    (by intro b hb; simp at hb) hok0
  have hbq : buyQty (sortByDate txs) = buyQty txs := by
    rw [buyQty_eq_map_sum, buyQty_eq_map_sum]
    exact List.Perm.sum_eq (hperm.map _)
  simp only [qtySum] at h
  rw [remainingBuysAfterAll, calculate_all_realized_pv, h, hbq]
  ring

/-- Witness for C3 on the concrete three-transaction history of the spec's
FIFO example (buys of 10 and 5, then a sell of 12). -/
theorem lot_conservation_witness :
    qtySum (remainingBuysAfterAll [exampleBuy1, exampleBuy2, exampleSell]) +
      soldSum (calculate_all_realized_pv [exampleBuy1, exampleBuy2, exampleSell]) =
      buyQty [exampleBuy1, exampleBuy2, exampleSell] :=
  lot_conservation [exampleBuy1, exampleBuy2, exampleSell]
    (by norm_num [List.forall_mem_cons, exampleBuy1, exampleBuy2, exampleSell])
    (by norm_num +decide [sortByDate, List.insertionSort, List.orderedInsert,
      exampleBuy1, exampleBuy2, exampleSell, List.inits, List.forall_mem_cons,
      sellQty, buyQty])

/-- Claim C6 counterexample: at annual income 22589 with family quotient 2
the per-part income 11294.5 lies in the claim's 11% bracket (above 11294,
at most 28797), yet the code's bracket table has a hole there and
`calculate_tax_bracket` falls through to 45%. -/
theorem tax_bracket_gap_counterexample :
    (calculate_tax_bracket 22589 2).1 = 45 ∧
    11294 < (22589 : ℚ) / 2 ∧ (22589 : ℚ) / 2 ≤ 28797 ∧
    claimBracketRate ((22589 : ℚ) / 2) = 11 ∧
    (calculate_tax_bracket 22589 2).1 ≠ claimBracketRate ((22589 : ℚ) / 2) := by
  norm_num [calculate_tax_bracket, TAX_BRACKETS_2024, findBracket, matchesBracket,
    claimBracketRate]

/-- Claim C6 (amended): for non-negative income and family quotient at
least 1, `calculate_tax_bracket` returns the rate of the 2024 bracket
containing `income/parts` whenever the per-part income does not fall in
one of the open holes (11294, 11295), (28797, 28798), (82341, 82342) of
the table; per-part incomes inside those holes fall through to 45%. -/
theorem tax_bracket_amended (income parts : ℚ) (h1 : 1 ≤ parts) :
    (0 ≤ income → ¬ inBracketGap (income / parts) →
      (calculate_tax_bracket income parts).1 = claimBracketRate (income / parts)) ∧
    (inBracketGap (income / parts) → (calculate_tax_bracket income parts).1 = 45) := by
  have hp0 : 0 < parts := by linarith
  set x := income / parts with hxdef
  constructor
  · intro h0 hg
    have hx0 : 0 ≤ x := div_nonneg h0 hp0.le
    simp only [inBracketGap, not_or, not_and, not_lt] at hg
    obtain ⟨hg1, hg2, hg3⟩ := hg
    simp only [calculate_tax_bracket, TAX_BRACKETS_2024, findBracket,
      matchesBracket_some, matchesBracket_none, ← hxdef]
    rcases le_or_lt x 11294 with c1 | c1
    · rw [if_pos ⟨hx0, c1⟩, claimBracketRate, if_pos c1]
    · have h11295 : 11295 ≤ x := hg1 c1
      rw [if_neg (fun hcon => by linarith [hcon.2])]
      rcases le_or_lt x 28797 with c2 | c2
      · rw [if_pos ⟨h11295, c2⟩, claimBracketRate, if_neg (by linarith), if_pos c2]
      · have h28798 : 28798 ≤ x := hg2 c2
        rw [if_neg (fun hcon => by linarith [hcon.2])]
        rcases le_or_lt x 82341 with c3 | c3
        · rw [if_pos ⟨h28798, c3⟩, claimBracketRate, if_neg (by linarith),
            if_neg (by linarith), if_pos c3]
        · have h82342 : 82342 ≤ x := hg3 c3
          rw [if_neg (fun hcon => by linarith [hcon.2])]
          rcases le_or_lt x 177106 with c4 | c4
          · rw [if_pos ⟨h82342, c4⟩, claimBracketRate, if_neg (by linarith),
              if_neg (by linarith), if_neg (by linarith), if_pos c4]
          · rw [if_neg (fun hcon => by linarith [hcon.2])]
            rcases le_or_lt 177107 x with c5 | c5
            · rw [if_pos ⟨c5, trivial⟩, claimBracketRate, if_neg (by linarith),
                if_neg (by linarith), if_neg (by linarith), if_neg (by linarith)]
            · rw [if_neg (fun hcon => by linarith [hcon.1]), claimBracketRate,
                if_neg (by linarith), if_neg (by linarith), if_neg (by linarith),
                if_neg (by linarith)]
  · intro hg
    simp only [calculate_tax_bracket, TAX_BRACKETS_2024, findBracket,
      matchesBracket_some, matchesBracket_none, ← hxdef]
    rcases hg with ⟨hga, hgb⟩ | ⟨hga, hgb⟩ | ⟨hga, hgb⟩
    · rw [if_neg (fun hcon => by linarith [hcon.2]),
        if_neg (fun hcon => by linarith [hcon.1]),
        if_neg (fun hcon => by linarith [hcon.1]),
        if_neg (fun hcon => by linarith [hcon.1]),
        if_neg (fun hcon => by linarith [hcon.1])]
    · rw [if_neg (fun hcon => by linarith [hcon.2]),
        if_neg (fun hcon => by linarith [hcon.2]),
        if_neg (fun hcon => by linarith [hcon.1]),
        if_neg (fun hcon => by linarith [hcon.1]),
        if_neg (fun hcon => by linarith [hcon.1])]
    · rw [if_neg (fun hcon => by linarith [hcon.2]),
        if_neg (fun hcon => by linarith [hcon.2]),
        if_neg (fun hcon => by linarith [hcon.2]),
        if_neg (fun hcon => by linarith [hcon.1]),
        if_neg (fun hcon => by linarith [hcon.1])]

/-- Witness for the amended C6 at income 30000 and one part: per-part
income 30000 sits in the 30% bracket. -/
theorem tax_bracket_amended_witness :
    (calculate_tax_bracket 30000 1).1 = claimBracketRate ((30000 : ℚ) / 1) :=
  (tax_bracket_amended 30000 1 le_rfl).1 (by norm_num)
    (by norm_num [inBracketGap])

/-- Claim C7: the percentage computations return 0 instead of dividing by
zero — `gain_loss_percent` is 0 when the consumed cost is 0,
`average_buy_price` is 0 when the consumed quantity is 0,
`unrealized_pnl_percent` is 0 when `total_invested ≤ 0` — and with
positive-quantity lots (the data-model invariant) the FIFO loop never
encounters a zero denominator. -/
theorem zero_guards (buys : List Transaction) (sell : Transaction)
    (p : Position) (price : ℚ) (hq : ∀ b ∈ buys, 0 < b.quantity) :
    ((fifoLoop sell.quantity buys ⟨0, 0, []⟩).totalBuyCost = 0 →
      (calculate_realized_pv_fifo buys sell).gainLossPercent = 0) ∧
    ((fifoLoop sell.quantity buys ⟨0, 0, []⟩).quantitySold = 0 →
      (calculate_realized_pv_fifo buys sell).averageBuyPrice = 0) ∧
    (p.total_invested ≤ 0 →
      (update_current_values p price).unrealized_pnl_percent = 0) ∧
    fifoDivSafe sell.quantity buys 0 := by
  refine ⟨?_, ?_, ?_, fifoDivSafe_of_nonzero sell.quantity buys
    (fun b hb => (hq b hb).ne') 0⟩
  · intro hc
    simp [calculate_realized_pv_fifo, hc]
  · intro hc
    simp [calculate_realized_pv_fifo, hc]
  · intro hti
    simp [update_current_values, not_lt.mpr hti]

/-- Witness for C7 with the concrete lot list `[exampleBuy1]`, the example
sell, and a position with nothing invested. -/
theorem zero_guards_witness :
    ((fifoLoop exampleSell.quantity [exampleBuy1] ⟨0, 0, []⟩).totalBuyCost = 0 →
      (calculate_realized_pv_fifo [exampleBuy1] exampleSell).gainLossPercent = 0) ∧
    ((fifoLoop exampleSell.quantity [exampleBuy1] ⟨0, 0, []⟩).quantitySold = 0 →
      (calculate_realized_pv_fifo [exampleBuy1] exampleSell).averageBuyPrice = 0) ∧
    (examplePositionZero.total_invested ≤ 0 →
      (update_current_values examplePositionZero 100).unrealized_pnl_percent = 0) ∧
    fifoDivSafe exampleSell.quantity [exampleBuy1] 0 :=
  zero_guards [exampleBuy1] exampleSell examplePositionZero 100
    (by norm_num [List.forall_mem_singleton, exampleBuy1])

/-- Claim C8: when a sale partially consumes a lot, both ledgers
(`_update_remaining_buys` and the lot loop of `_calculate_position_cost`)
scale quantity and cost by the same proportion: every surviving lot stems
from an input lot with no larger quantity, no larger cost, and the same
cost-per-share (stated multiplicatively). -/
theorem lots_shrink_proportionally :
    (∀ (buys : List Transaction) (r : ℚ), (∀ b ∈ buys, 0 ≤ b.totalCost) →
      ∀ b ∈ update_remaining_buys buys r, ∃ a ∈ buys,
        b.quantity ≤ a.quantity ∧ b.totalCost ≤ a.totalCost ∧
        b.totalCost * a.quantity = a.totalCost * b.quantity) ∧
    (∀ (lots : List Lot) (s : ℚ), (∀ l ∈ lots, 0 ≤ l.cost) →
      ∀ m ∈ sellFromLots s lots, ∃ l ∈ lots,
        m.quantity ≤ l.quantity ∧ m.cost ≤ l.cost ∧
        m.cost * l.quantity = l.cost * m.quantity) := by
  constructor
  · intro buys
    induction buys with
    | nil =>
      intro r _ b hb
      simp [update_remaining_buys] at hb
    | cons tx rest ih =>
      intro r h b hb
      have htx : 0 ≤ tx.totalCost := h tx (List.mem_cons_self tx rest)
      have hrest : ∀ a ∈ rest, 0 ≤ a.totalCost := fun a ha => h a (List.mem_cons_of_mem _ ha)
      simp only [update_remaining_buys] at hb
      split_ifs at hb with h1 h2
      · rcases List.mem_cons.mp hb with he | hm
        · exact ⟨tx, List.mem_cons_self tx rest, by rw [he], by rw [he], by rw [he]⟩
        · obtain ⟨a, ha, hle⟩ := ih r hrest b hm
          exact ⟨a, List.mem_cons_of_mem _ ha, hle⟩
      · rcases List.mem_cons.mp hb with he | hm
        · have hr0 : 0 < r := not_le.mp h1
          have hq0 : 0 < tx.quantity := by linarith
          refine ⟨tx, List.mem_cons_self tx rest, ?_, ?_, ?_⟩
          · rw [he]
            show tx.quantity - r ≤ tx.quantity
            linarith
          · rw [he]
            show tx.totalCost * (tx.quantity - r) / tx.quantity ≤ tx.totalCost
            rw [div_le_iff₀ hq0]
            exact mul_le_mul_of_nonneg_left (by linarith) htx
          · rw [he]
            show tx.totalCost * (tx.quantity - r) / tx.quantity * tx.quantity
              = tx.totalCost * (tx.quantity - r)
            rw [div_mul_cancel₀ _ hq0.ne']
        · obtain ⟨a, ha, hle⟩ := ih 0 hrest b hm
          exact ⟨a, List.mem_cons_of_mem _ ha, hle⟩
      · obtain ⟨a, ha, hle⟩ := ih (r - tx.quantity) hrest b hb
        exact ⟨a, List.mem_cons_of_mem _ ha, hle⟩
  · intro lots
    induction lots with
    | nil =>
      intro s _ m hm
      simp [sellFromLots] at hm
    | cons lot rest ih =>
      intro s h m hm
      have hlot : 0 ≤ lot.cost := h lot (List.mem_cons_self lot rest)
      have hrest : ∀ l ∈ rest, 0 ≤ l.cost := fun l hl => h l (List.mem_cons_of_mem _ hl)
      simp only [sellFromLots] at hm
      split_ifs at hm with h1 h2
      · exact ⟨m, hm, le_rfl, le_rfl, rfl⟩
      · obtain ⟨l, hl, hle⟩ := ih (s - lot.quantity) hrest m hm
        exact ⟨l, List.mem_cons_of_mem _ hl, hle⟩
      · rcases List.mem_cons.mp hm with he | hmm
        · have hs0 : 0 < s := not_le.mp h1
          have heps : (0:ℚ) < 1e-9 := by norm_num
          have hq0 : 0 < lot.quantity := by
            have := not_le.mp h2
            linarith
          refine ⟨lot, List.mem_cons_self lot rest, ?_, ?_, ?_⟩
          · rw [he]
            show lot.quantity - s ≤ lot.quantity
            linarith
          · rw [he]
            show lot.cost - lot.cost * (s / lot.quantity) ≤ lot.cost
            have : 0 ≤ lot.cost * (s / lot.quantity) :=
              mul_nonneg hlot (div_nonneg hs0.le hq0.le)
            linarith
          · rw [he]
            show (lot.cost - lot.cost * (s / lot.quantity)) * lot.quantity
              = lot.cost * (lot.quantity - s)
            field_simp
            ring
        · exact ⟨m, List.mem_cons_of_mem _ hmm, le_rfl, le_rfl, rfl⟩

/-- Witness for C8: the 4-share sale against the 10-share example lot
leaves lots each dominated by an original lot with the same
cost-per-share. -/
theorem lots_shrink_proportionally_witness :
    ∀ b ∈ update_remaining_buys [exampleBuy1] 4, ∃ a ∈ [exampleBuy1],
      b.quantity ≤ a.quantity ∧ b.totalCost ≤ a.totalCost ∧
      b.totalCost * a.quantity = a.totalCost * b.quantity :=
  lots_shrink_proportionally.1 [exampleBuy1] 4
    (by norm_num [List.forall_mem_singleton, exampleBuy1])

/-- Claim C9: for every transaction list with positive quantities and
non-negative total costs (the data-model invariant), the lot replay of
`_calculate_position_cost` — a total structural recursion, hence it
terminates and raises nothing — leaves only lots with non-negative
quantity and cost, and any sell covering at least the whole available
quantity simply empties the queue (the quantity floors at 0). -/
theorem lot_ledger_safe (txs : List Transaction)
    (htx : ∀ tx ∈ txs, 0 < tx.quantity ∧ 0 ≤ tx.totalCost) :
    (∀ l ∈ positionLots txs [], 0 ≤ l.quantity ∧ 0 ≤ l.cost) ∧
    (∀ (q : ℚ) (lots : List Lot), 0 < q → (∀ l ∈ lots, 0 < l.quantity) →
      lotQtySum lots ≤ q → sellFromLots q lots = []) := by
  constructor
  · intro l hl
    have := positionLots_valid txs [] htx (by intro m hm; simp at hm) l hl
    exact ⟨this.1.le, this.2⟩
  · intro q lots hq h hsum
    exact sellFromLots_empties_on_oversell lots q hq h hsum

/-- Witness for C9 on the over-selling history `[exampleBuy1, exampleSell]`
(buy 10, then sell 12). -/
theorem lot_ledger_safe_witness :
    (∀ l ∈ positionLots [exampleBuy1, exampleSell] [], 0 ≤ l.quantity ∧ 0 ≤ l.cost) ∧
    (∀ (q : ℚ) (lots : List Lot), 0 < q → (∀ l ∈ lots, 0 < l.quantity) →
      lotQtySum lots ≤ q → sellFromLots q lots = []) :=
  lot_ledger_safe [exampleBuy1, exampleSell]
    (by norm_num [List.forall_mem_cons, exampleBuy1, exampleSell])

/-- Claim C10: `calculate_realized_pv_fifo` sells the minimum of the
requested quantity and the total quantity of the given lots (the shortfall
is silent), and on an empty lot list it returns `quantity_sold = 0`,
`average_buy_price = 0`, `gain_loss_percent = 0` and a gain equal to the
whole sale proceeds. -/
theorem fifo_quantity_capped (buys : List Transaction) (sell : Transaction)
    (hq : ∀ b ∈ buys, 0 < b.quantity) (hs : 0 ≤ sell.quantity) :
    (calculate_realized_pv_fifo buys sell).quantitySold
        = min sell.quantity (qtySum buys) ∧
    (calculate_realized_pv_fifo [] sell).quantitySold = 0 ∧
    (calculate_realized_pv_fifo [] sell).averageBuyPrice = 0 ∧
    (calculate_realized_pv_fifo [] sell).gainLossPercent = 0 ∧
    (calculate_realized_pv_fifo [] sell).totalGainLoss = sell.totalCost := by
  have h0 : ∀ b ∈ buys, 0 ≤ b.quantity := fun b hb => (hq b hb).le
  refine ⟨?_, by simp [calculate_realized_pv_fifo, fifoLoop], ?_, ?_, ?_⟩
  · simp only [calculate_realized_pv_fifo]
    rw [fifoLoop_quantitySold sell.quantity buys ⟨0, 0, []⟩ h0]
    rcases eq_or_lt_of_le hs with he | hl
    · rw [if_pos (le_of_eq he.symm)]
      rw [← he, min_eq_left (qtySum_nonneg buys h0)]
    · rw [if_neg (not_le.mpr hl), zero_add]
  · simp [calculate_realized_pv_fifo, fifoLoop]
  · simp [calculate_realized_pv_fifo, fifoLoop]
  · simp [calculate_realized_pv_fifo, fifoLoop]

/-- Witness for C10 with the single example lot (10 available) against the
12-share sell, so the cap at the available quantity bites. -/
theorem fifo_quantity_capped_witness :
    (calculate_realized_pv_fifo [exampleBuy1] exampleSell).quantitySold
        = min exampleSell.quantity (qtySum [exampleBuy1]) ∧
    (calculate_realized_pv_fifo [] exampleSell).quantitySold = 0 ∧
    (calculate_realized_pv_fifo [] exampleSell).averageBuyPrice = 0 ∧
    (calculate_realized_pv_fifo [] exampleSell).gainLossPercent = 0 ∧
    (calculate_realized_pv_fifo [] exampleSell).totalGainLoss = exampleSell.totalCost :=
  fifo_quantity_capped [exampleBuy1] exampleSell
    (by norm_num [List.forall_mem_singleton, exampleBuy1])
    (by norm_num [exampleSell])

end Trading
